import Mathlib

/-!
Verification of `rossler.py`, a fixed-step RK4 integrator for the Rössler
system.  The numerical core (`du`, `rk4_step`, the driver loop inside
`integrate`, and the entry point `rossler`) is shallowly embedded below.
Floating-point reals are modelled as exact rationals `ℚ`; the 3-component
numpy state vectors become the structure `St`; the pandas DataFrame output
becomes the `Trajectory` structure (its `t` column plus the list of state
rows); concrete evaluations reduce exact rational arithmetic, which needs a
raised recursion limit.  Exceptions that CPython/numba raise on bad input (`ZeroDivisionError`
from `T / dt` when `dt = 0`, `ValueError` from `np.linspace`/`np.zeros` on a
negative size) are modelled with `Except PyError`.
-/

set_option maxRecDepth 2000
set_option linter.unusedVariables false

/-- A 3-dimensional state vector `(x, y, z)`, modelling the numpy row
`u[i]` of the solution buffer. -/
structure St where
  x : ℚ
  y : ℚ
  z : ℚ
deriving DecidableEq, Repr

/-- Elementwise vector addition, as numpy broadcasts `+` over the row. -/
instance : Add St := ⟨fun u v => ⟨u.x + v.x, u.y + v.y, u.z + v.z⟩⟩

/-- Scalar times vector, as numpy broadcasts `*` over the row. -/
instance : SMul ℚ St := ⟨fun q v => ⟨q * v.x, q * v.y, q * v.z⟩⟩

/-- Vector divided by a scalar, as numpy broadcasts `/` over the row. -/
instance : HDiv St ℚ St := ⟨fun v q => ⟨v.x / q, v.y / q, v.z / q⟩⟩

/-- The zero state `(0, 0, 0)`, the value `np.zeros` puts in every slot. -/
def St.zero : St := ⟨0, 0, 0⟩

/-- Embedding of `du(m, c)` from `rossler.py` lines 47-64: the Rössler vector field
`(-y - z, x + a*y, b + z*(x - c))` with local constants `a = b = 0.2`. -/
def du (m : St) (c : ℚ) : St :=
  let a : ℚ := 0.2
  let b : ℚ := 0.2
  ⟨-m.y - m.z, m.x + a * m.y, b + m.z * (m.x - c)⟩

/-- Embedding of `rk4_step(u_prev, delta_t, t_current)` from `rossler.py` lines 88-94.
In the source it is a closure over `c` inside `integrate`; here `c` is an
explicit first argument.  The `t_current` argument is kept because the
source declares it, even though the body never uses it. -/
def rk4_step (c : ℚ) (u_prev : St) (delta_t : ℚ) (t_current : ℚ) : St :=
  let K1 := delta_t • du u_prev c
  let K2 := delta_t • du (u_prev + K1 / (2 : ℚ)) c
  let K3 := delta_t • du (u_prev + K2 / (2 : ℚ)) c
  let K4 := delta_t • du (u_prev + K3) c
  u_prev + (K1 + (2 : ℚ) • K2 + (2 : ℚ) • K3 + K4) / (6 : ℚ)

/-- Python list/array indexing `u[i]` where `i` may be negative: a negative
index counts from the end (`u[-1]` is the last slot).  Out-of-range access
(never reached by the driver loop) defaults to the zero state. -/
def pyGet (u : List St) (i : ℤ) : St :=
  let j : ℤ := if i < 0 then i + u.length else i
  u.getD j.toNat St.zero

/-- One iteration of the driver loop (`rossler.py` lines 97-99): set
`t_current = delta_t * i` and overwrite
`u[i] = rk4_step(u[i - 1], delta_t, t_current)`; at `i = 0` the read
`u[i - 1]` is Python's `u[-1]`, the last buffer slot. -/
def loopBody (c delta_t : ℚ) (v : List St) (i : ℕ) : List St :=
  v.set i (rk4_step c (pyGet v ((i : ℤ) - 1)) delta_t (delta_t * (i : ℚ)))

/-- Embedding of `for_loop(u, delta_t, n)` from `rossler.py` lines 95-100: run
`loopBody` for `i` in `range(n)` over the buffer `u`. -/
def for_loop (u : List St) (delta_t : ℚ) (n : ℕ) (c : ℚ) : List St :=
  (List.range n).foldl (loopBody c delta_t) u

/-- Embedding of `integrate(u, delta_t, n, c)` from `rossler.py` lines 66-101: it defines
unused locals `a = b = 0.2`, the `rk4_step` closure, and returns
`for_loop(u, delta_t, n)`. -/
def integrate (u : List St) (delta_t : ℚ) (n : ℕ) (c : ℚ) : List St :=
  for_loop u delta_t n c

/-- Model of `np.linspace(a, b, n)` with default `endpoint=True`, in exact
arithmetic: `n = 0` gives `[]`, `n = 1` gives `[a]`, and `n ≥ 2` gives the
evenly spaced grid `a + (b - a) * i / (n - 1)` for `i = 0, …, n-1`. -/
def linspace (a b : ℚ) (n : ℕ) : List ℚ :=
  if n = 1 then [a]
  else (List.range n).map (fun i : ℕ => a + (b - a) * (i : ℚ) / ((n : ℚ) - 1))

/-- Python's `int()` applied to a real number: truncation toward zero. -/
def pyInt (q : ℚ) : ℤ :=
  if q < 0 then -⌊-q⌋ else ⌊q⌋

/-- The trajectory data product: the pandas DataFrame built in `rossler`
from the time column `t_vals` and the three solution columns, one state row
per mesh point. -/
structure Trajectory where
  t : List ℚ
  states : List St
deriving DecidableEq, Repr

/-- Exceptions the Python runtime raises out of `rossler` on bad input:
`ZeroDivisionError` from `T / dt` when `dt == 0` (numba's default error
model matches CPython here), and `ValueError` from
`np.linspace`/`np.zeros` when the computed count `n` is negative. -/
inductive PyError where
  | zeroDivisionError : PyError
  | valueError : PyError
deriving DecidableEq, Repr

/-- The non-raising path of `rossler(c, T, dt)` (`rossler.py` lines 14-44):
`n = int(T / dt)`; `t_vals = np.linspace(0, T, n)`; the buffer starts as
`n` zero rows; `integrate` runs the driver loop; the DataFrame pairs the
time column with the solution columns. -/
def rosslerOk (c T dt : ℚ) : Trajectory :=
  let n : ℕ := (pyInt (T / dt)).toNat
  let t_vals := linspace 0 T n
  let u := List.replicate n St.zero
  let soln := integrate u dt n c
  ⟨t_vals, soln⟩

/-- Embedding of the entry point `rossler(c, T, dt)`, with the runtime errors made
explicit: `dt = 0` raises `ZeroDivisionError` at `T / dt`; a negative
`n = int(T / dt)` raises `ValueError` at `np.linspace(0, T, n)`; otherwise
the trajectory is returned.  No other validation exists in the source. -/
def rossler (c T dt : ℚ) : Except PyError Trajectory :=
  if dt = 0 then .error .zeroDivisionError
  else if pyInt (T / dt) < 0 then .error .valueError
  else .ok (rosslerOk c T dt)

/-- The mathematical single-step recurrence the driver loop realises:
`trajSeq 0` is one RK4 step from the zero initial condition, and each
later row is one RK4 step from the previous row. -/
def trajSeq (c dt : ℚ) : ℕ → St
  | 0 => rk4_step c St.zero dt 0
  | i + 1 => rk4_step c (trajSeq c dt i) dt 0

example : du ⟨0, 0, 0⟩ 0 = ⟨0, 0, 1/5⟩ := by with_unfolding_all decide
example : pyInt (3 / 2 : ℚ) = 1 := by with_unfolding_all decide
example : pyInt (-1 / 2 : ℚ) = 0 := by with_unfolding_all decide
example : linspace 0 3 1 = [0] := by with_unfolding_all decide
example : linspace 0 3 3 = [0, 3/2, 3] := by with_unfolding_all decide
example : (rosslerOk 0 3 2).t = [0] := by with_unfolding_all decide
/-! ### Helper lemmas about the embedded definitions -/

/-- The stepper never reads its `t_current` argument. -/
lemma rk4_step_t_eq (c : ℚ) (u_prev : St) (delta_t t : ℚ) :
    rk4_step c u_prev delta_t t = rk4_step c u_prev delta_t 0 := rfl

lemma getD_replicate_zero (n j : ℕ) :
    (List.replicate n St.zero).getD j St.zero = St.zero := by
  rw [List.getD_eq_getElem?_getD, List.getElem?_replicate]
  split <;> rfl

lemma getD_set_self (l : List St) (i : ℕ) (v : St) (h : i < l.length) :
    (l.set i v).getD i St.zero = v := by
  rw [List.getD_eq_getElem?_getD, List.getElem?_set_self h]
  rfl

lemma getD_set_ne (l : List St) (i j : ℕ) (h : i ≠ j) (v : St) :
    (l.set i v).getD j St.zero = l.getD j St.zero := by
  rw [List.getD_eq_getElem?_getD, List.getElem?_set_ne h, ← List.getD_eq_getElem?_getD]

lemma pyGet_neg_one (v : List St) :
    pyGet v (-1) = v.getD (v.length - 1) St.zero := by
  simp only [pyGet]
  rw [if_pos (by norm_num : (-1 : ℤ) < 0)]
  congr 1
  omega

lemma pyGet_natCast (v : List St) (i : ℕ) :
    pyGet v (i : ℤ) = v.getD i St.zero := by
  simp only [pyGet]
  rw [if_neg (by omega : ¬ ((i : ℤ) < 0))]
  congr 1

lemma foldl_loopBody_length (c dt : ℚ) (is : List ℕ) (v : List St) :
    (is.foldl (loopBody c dt) v).length = v.length := by
  induction is generalizing v with
  | nil => rfl
  | cons i is ih => rw [List.foldl_cons, ih, loopBody, List.length_set]

/-- The driver-loop invariant: after the iterations `i = 0, …, k-1` have
run on the zero-initialized buffer of size `n`, the slots below `k` hold
the recurrence values `trajSeq` and the slots from `k` on still hold their
zero initialization. -/
lemma loop_inv (c dt : ℚ) (n : ℕ) :
    ∀ k, k ≤ n → ∀ j,
      ((List.range k).foldl (loopBody c dt) (List.replicate n St.zero)).getD j St.zero
        = if j < k then trajSeq c dt j else St.zero := by
  intro k
  induction k with
  | zero =>
    intro _ j
    simp [getD_replicate_zero]
  | succ m ih =>
    intro hm j
    have hmn : m < n := hm
    have hm' : m ≤ n := Nat.le_of_lt hmn
    rw [List.range_succ, List.foldl_append, List.foldl_cons, List.foldl_nil]
    set B := (List.range m).foldl (loopBody c dt) (List.replicate n St.zero) with hB
    have hlen : B.length = n := by
      rw [hB, foldl_loopBody_length, List.length_replicate]
    have hval : rk4_step c (pyGet B ((m : ℤ) - 1)) dt (dt * (m : ℚ)) = trajSeq c dt m := by
      cases m with
      | zero =>
        have h0 : ((0 : ℕ) : ℤ) - 1 = (-1 : ℤ) := by norm_num
        rw [h0, pyGet_neg_one, hlen, ih (Nat.zero_le n) (n - 1),
          if_neg (by omega : ¬ (n - 1 < 0))]
        rfl
      | succ p =>
        have h1 : ((p + 1 : ℕ) : ℤ) - 1 = ((p : ℕ) : ℤ) := by push_cast; ring
        rw [h1, pyGet_natCast, ih hm' p, if_pos (Nat.lt_succ_self p)]
        rfl
    rw [loopBody]
    by_cases hj : j = m
    · subst hj
      rw [getD_set_self _ _ _ (by rw [hlen]; exact hmn), hval,
        if_pos (Nat.lt_succ_self j)]
    · rw [getD_set_ne _ _ _ (Ne.symm hj) _, ih hm' j]
      by_cases h2 : j < m
      · rw [if_pos h2, if_pos (Nat.lt_succ_of_lt h2)]
      · rw [if_neg h2, if_neg (by omega)]

lemma rosslerOk_t_eq (c T dt : ℚ) :
    (rosslerOk c T dt).t = linspace 0 T (pyInt (T / dt)).toNat := rfl

lemma rosslerOk_states_eq (c T dt : ℚ) :
    (rosslerOk c T dt).states
      = for_loop (List.replicate (pyInt (T / dt)).toNat St.zero) dt
          (pyInt (T / dt)).toNat c := rfl

/-- Closed form of the rows of the returned trajectory: row `j` is the
`j`-th value of the single-step recurrence `trajSeq`. -/
lemma rosslerOk_states_getD (c T dt : ℚ) (j : ℕ) :
    (rosslerOk c T dt).states.getD j St.zero
      = if j < (pyInt (T / dt)).toNat then trajSeq c dt j else St.zero := by
  rw [rosslerOk_states_eq, for_loop]
  exact loop_inv c dt _ _ le_rfl j

lemma rosslerOk_states_length (c T dt : ℚ) :
    (rosslerOk c T dt).states.length = (pyInt (T / dt)).toNat := by
  rw [rosslerOk_states_eq, for_loop, foldl_loopBody_length, List.length_replicate]

lemma linspace_length (a b : ℚ) (n : ℕ) : (linspace a b n).length = n := by
  rcases eq_or_ne n 1 with h | h
  · rw [linspace, if_pos h, h]
    rfl
  · rw [linspace, if_neg h, List.length_map, List.length_range]

lemma rosslerOk_t_length (c T dt : ℚ) :
    (rosslerOk c T dt).t.length = (pyInt (T / dt)).toNat := by
  rw [rosslerOk_t_eq, linspace_length]

lemma pyInt_eq_floor (q : ℚ) (h : 0 ≤ q) : pyInt q = ⌊q⌋ := by
  rw [pyInt, if_neg (not_lt.2 h)]

lemma pyInt_toNat_cast (q : ℚ) (h : 0 ≤ q) : ((pyInt q).toNat : ℤ) = ⌊q⌋ := by
  rw [pyInt_eq_floor q h, Int.toNat_of_nonneg (Int.floor_nonneg.2 h)]

/-- With `dt ≠ 0` and `T ≥ 0` neither runtime exception fires, so the
entry point returns the trajectory. -/
lemma rossler_eq_ok (c T dt : ℚ) (hdt : 0 < dt) (hT : 0 ≤ T) :
    rossler c T dt = .ok (rosslerOk c T dt) := by
  have h0 : 0 ≤ pyInt (T / dt) := by
    rw [pyInt_eq_floor _ (div_nonneg hT hdt.le)]
    exact Int.floor_nonneg.2 (div_nonneg hT hdt.le)
  rw [rossler, if_neg (ne_of_gt hdt), if_neg (not_lt.2 h0)]

lemma linspace_zero_getD (b : ℚ) (n j : ℕ) (hn : n ≠ 1) (hj : j < n) :
    (linspace 0 b n).getD j 0 = b * (j : ℚ) / ((n : ℚ) - 1) := by
  rw [linspace, if_neg hn, List.getD_eq_getElem?_getD]
  rw [List.getElem?_map, List.getElem?_range hj]
  simp only [Option.map_some', Option.getD_some]
  ring

lemma linspace_zero_last (b : ℚ) (n : ℕ) (hn : 2 ≤ n) :
    (linspace 0 b n).getD (n - 1) 0 = b := by
  rw [linspace_zero_getD b n (n - 1) (by omega) (by omega)]
  have h1 : ((n : ℚ) - 1) ≠ 0 := by
    have h2 : (2 : ℚ) ≤ (n : ℚ) := by exact_mod_cast hn
    linarith
  rw [Nat.cast_sub (by omega : 1 ≤ n), Nat.cast_one, mul_div_assoc, div_self h1,
    mul_one]

lemma linspace_zero_head (b : ℚ) (n : ℕ) (hn : 1 ≤ n) :
    (linspace 0 b n).getD 0 0 = 0 := by
  rcases eq_or_ne n 1 with h | h
  · subst h
    rfl
  · rw [linspace_zero_getD b n 0 h (by omega)]
    simp

/-! ### Spec-side definitions for the refinement claims -/

/-- Spec-side definition for C4: the vector field exactly as the spec
formula writes it, `(-y - z, x + a*y, b + z*(x - c))` with `a = b = 0.2`. -/
def field_spec (m : St) (c : ℚ) : St :=
  ⟨-m.y - m.z, m.x + (0.2 : ℚ) * m.y, (0.2 : ℚ) + m.z * (m.x - c)⟩

/-- Spec-side definition for C3: the classical explicit RK4 update exactly
as the spec formula writes it, in terms of `field_spec`. -/
def rk4_spec_step (c : ℚ) (state_prev : St) (dt : ℚ) : St :=
  let K1 := dt • field_spec state_prev c
  let K2 := dt • field_spec (state_prev + K1 / (2 : ℚ)) c
  let K3 := dt • field_spec (state_prev + K2 / (2 : ℚ)) c
  let K4 := dt • field_spec (state_prev + K3) c
  state_prev + (K1 + (2 : ℚ) • K2 + (2 : ℚ) • K3 + K4) / (6 : ℚ)

/-- Verification device for C10: the driver loop with an arbitrary
assignment `tc i` to `t_current` in place of the source's `delta_t * i`. -/
def for_loopT (tc : ℕ → ℚ) (u : List St) (delta_t : ℚ) (n : ℕ) (c : ℚ) : List St :=
  (List.range n).foldl
    (fun v i => v.set i (rk4_step c (pyGet v ((i : ℤ) - 1)) delta_t (tc i))) u

/-! ### Shared row lemmas -/

/-- Row 0 of a nonempty trajectory is one RK4 step from the zero state. -/
lemma rosslerOk_row0 (c T dt : ℚ) (hT : 0 < T) (hdt : 0 < dt)
    (hn : 1 ≤ ⌊T / dt⌋) :
    (rosslerOk c T dt).states.getD 0 St.zero = rk4_step c St.zero dt 0 := by
  rw [rosslerOk_states_getD, if_pos]
  · rfl
  · have h := pyInt_eq_floor (T / dt) (div_nonneg hT.le hdt.le)
    omega

/-- Every interior row is one RK4 step from the previous row. -/
lemma rosslerOk_row_succ (c T dt : ℚ) (i : ℕ) (h1 : 1 ≤ i)
    (h2 : i < (pyInt (T / dt)).toNat) :
    (rosslerOk c T dt).states.getD i St.zero
      = rk4_step c ((rosslerOk c T dt).states.getD (i - 1) St.zero) dt
          (dt * (i : ℚ)) := by
  rw [rosslerOk_states_getD, rosslerOk_states_getD, if_pos h2, if_pos (by omega)]
  obtain ⟨p, rfl⟩ : ∃ p, i = p + 1 := ⟨i - 1, by omega⟩
  simp only [Nat.add_sub_cancel]
  rfl

/-! ### Claims -/

/-- Claim C1 (counterexample): at `c = 0`, `T = 1`, `dt = 1` the call
succeeds and row 0 of the trajectory is not the initial condition
`(0, 0, 0)` — the loop has already overwritten slot 0 with one RK4 step. -/
theorem claim_C1_cex :
    rossler 0 1 1 = .ok (rosslerOk 0 1 1)
      ∧ (rosslerOk 0 1 1).states.getD 0 St.zero ≠ St.zero := by
  refine ⟨rossler_eq_ok 0 1 1 (by norm_num) (by norm_num), ?_⟩
  rw [rosslerOk_states_getD,
    if_pos (by with_unfolding_all decide : 0 < (pyInt ((1 : ℚ) / 1)).toNat)]
  with_unfolding_all decide

/-- Claim C1 (amended): for every `c` and valid `T, dt > 0` with at least
one step, the call returns normally and row 0 of the Trajectory is the
result of ONE RK4 step taken from the initial condition `(0, 0, 0)` — not
the initial condition itself. -/
theorem claim_C1_amended (c T dt : ℚ) (hT : 0 < T) (hdt : 0 < dt)
    (hn : 1 ≤ ⌊T / dt⌋) :
    rossler c T dt = .ok (rosslerOk c T dt)
      ∧ (rosslerOk c T dt).states.getD 0 St.zero = rk4_step c St.zero dt 0 :=
  ⟨rossler_eq_ok c T dt hdt hT.le, rosslerOk_row0 c T dt hT hdt hn⟩

theorem claim_C1_amended_witness :
    (0 : ℚ) < 1 ∧ (0 : ℚ) < 1 ∧ 1 ≤ ⌊(1 : ℚ) / 1⌋
      ∧ (rossler 0 1 1 = .ok (rosslerOk 0 1 1)
          ∧ (rosslerOk 0 1 1).states.getD 0 St.zero = rk4_step 0 St.zero 1 0) :=
  ⟨by norm_num, by norm_num, by with_unfolding_all decide,
    claim_C1_amended 0 1 1 (by norm_num) (by norm_num)
      (by with_unfolding_all decide)⟩

/-- Claim C2: with `n = ⌊T/dt⌋ ≥ 1`, the step-0 read `u[0 - 1]` on the
zero-initialized buffer resolves to the last slot `n - 1`, that slot still
holds the zero state at that moment, and consequently row 0 of the result
equals exactly one RK4 step taken from `(0, 0, 0)`. -/
theorem claim_C2 (c T dt : ℚ) (hT : 0 < T) (hdt : 0 < dt)
    (hn : 1 ≤ ⌊T / dt⌋) :
    pyGet (List.replicate (pyInt (T / dt)).toNat St.zero) (0 - 1)
        = (List.replicate (pyInt (T / dt)).toNat St.zero).getD
            ((pyInt (T / dt)).toNat - 1) St.zero
      ∧ pyGet (List.replicate (pyInt (T / dt)).toNat St.zero) (0 - 1) = St.zero
      ∧ (rosslerOk c T dt).states.getD 0 St.zero = rk4_step c St.zero dt 0 := by
  have hneg : ((0 : ℤ) - 1) = (-1 : ℤ) := by norm_num
  have h1 : pyGet (List.replicate (pyInt (T / dt)).toNat St.zero) (0 - 1)
      = (List.replicate (pyInt (T / dt)).toNat St.zero).getD
          ((pyInt (T / dt)).toNat - 1) St.zero := by
    rw [hneg, pyGet_neg_one, List.length_replicate]
  exact ⟨h1, by rw [h1, getD_replicate_zero],
    rosslerOk_row0 c T dt hT hdt hn⟩

theorem claim_C2_witness :
    (0 : ℚ) < 1 ∧ (0 : ℚ) < 1 ∧ 1 ≤ ⌊(1 : ℚ) / 1⌋
      ∧ (pyGet (List.replicate (pyInt ((1 : ℚ) / 1)).toNat St.zero) (0 - 1)
            = (List.replicate (pyInt ((1 : ℚ) / 1)).toNat St.zero).getD
                ((pyInt ((1 : ℚ) / 1)).toNat - 1) St.zero
          ∧ pyGet (List.replicate (pyInt ((1 : ℚ) / 1)).toNat St.zero) (0 - 1)
              = St.zero
          ∧ (rosslerOk 0 1 1).states.getD 0 St.zero = rk4_step 0 St.zero 1 0) :=
  ⟨by norm_num, by norm_num, by with_unfolding_all decide,
    claim_C2 0 1 1 (by norm_num) (by norm_num) (by with_unfolding_all decide)⟩

/-- Claim C3: one stepper invocation returns exactly the classical RK4
update of the spec (for every previous state, step size, parameter, and
whatever `t_current` value is supplied). -/
theorem claim_C3 (c : ℚ) (u_prev : St) (dt tcur : ℚ) :
    rk4_step c u_prev dt tcur = rk4_spec_step c u_prev dt := rfl

/-- Claim C4: the vector-field evaluator returns exactly the derivative
`(-y - z, x + a*y, b + z*(x - c))` with `a = b = 0.2`, for every state and
every `c`; it is a total pure function with no input validation. -/
theorem claim_C4 (m : St) (c : ℚ) : du m c = field_spec m c := rfl

/-- Claim C5: for valid `T, dt > 0` the call returns normally and both the
state rows and the time column of the Trajectory have length `⌊T / dt⌋`. -/
theorem claim_C5 (c T dt : ℚ) (hT : 0 < T) (hdt : 0 < dt) :
    rossler c T dt = .ok (rosslerOk c T dt)
      ∧ ((rosslerOk c T dt).states.length : ℤ) = ⌊T / dt⌋
      ∧ ((rosslerOk c T dt).t.length : ℤ) = ⌊T / dt⌋ := by
  have h := pyInt_toNat_cast (T / dt) (div_nonneg hT.le hdt.le)
  exact ⟨rossler_eq_ok c T dt hdt hT.le,
    by rw [rosslerOk_states_length, h], by rw [rosslerOk_t_length, h]⟩

theorem claim_C5_witness :
    (0 : ℚ) < 3 ∧ (0 : ℚ) < 2
      ∧ (rossler 0 3 2 = .ok (rosslerOk 0 3 2)
          ∧ ((rosslerOk 0 3 2).states.length : ℤ) = ⌊(3 : ℚ) / 2⌋
          ∧ ((rosslerOk 0 3 2).t.length : ℤ) = ⌊(3 : ℚ) / 2⌋) :=
  ⟨by norm_num, by norm_num, claim_C5 0 3 2 (by norm_num) (by norm_num)⟩

/-- Claim C6 (counterexample): at `c = 0`, `T = 3`, `dt = 2` we have
`n = ⌊T/dt⌋ = 1 ≥ 1`, yet the time column is `[0]`: it does not contain
the endpoint `T = 3`, and it coincides exactly with the accumulated
sequence `i * dt` — both parts of the claim fail at `n = 1`. -/
theorem claim_C6_cex :
    rossler 0 3 2 = .ok (rosslerOk 0 3 2)
      ∧ (rosslerOk 0 3 2).t = [0]
      ∧ ¬ ((3 : ℚ) ∈ (rosslerOk 0 3 2).t)
      ∧ (rosslerOk 0 3 2).t
          = (List.range (pyInt ((3 : ℚ) / 2)).toNat).map
              (fun i : ℕ => (i : ℚ) * 2) := by
  refine ⟨rossler_eq_ok 0 3 2 (by norm_num) (by norm_num), ?_, ?_, ?_⟩ <;>
    with_unfolding_all decide

/-- Claim C6 (amended): when `n = ⌊T/dt⌋ ≥ 2`, the time column equals the
evenly spaced `linspace 0 T n` grid including both endpoints — `t[0] = 0`
and `t[n-1] = T` — and it is not the accumulated sequence `i * dt`.  (At
`n = 1` the column is `[0]`, which omits the endpoint `T` and trivially
equals `[0 * dt]`.) -/
theorem claim_C6_amended (c T dt : ℚ) (hT : 0 < T) (hdt : 0 < dt)
    (hn : 2 ≤ ⌊T / dt⌋) :
    (rosslerOk c T dt).t = linspace 0 T (pyInt (T / dt)).toNat
      ∧ (rosslerOk c T dt).t.getD 0 0 = 0
      ∧ (rosslerOk c T dt).t.getD ((pyInt (T / dt)).toNat - 1) 0 = T
      ∧ (rosslerOk c T dt).t
          ≠ (List.range (pyInt (T / dt)).toNat).map
              (fun i : ℕ => (i : ℚ) * dt) := by
  have hq : (0 : ℚ) ≤ T / dt := div_nonneg hT.le hdt.le
  have hpy : pyInt (T / dt) = ⌊T / dt⌋ := pyInt_eq_floor _ hq
  have hn2 : 2 ≤ (pyInt (T / dt)).toNat := by omega
  have hlast : (rosslerOk c T dt).t.getD ((pyInt (T / dt)).toNat - 1) 0 = T := by
    rw [rosslerOk_t_eq]
    exact linspace_zero_last T _ hn2
  refine ⟨rosslerOk_t_eq c T dt, ?_, hlast, ?_⟩
  · rw [rosslerOk_t_eq]
    exact linspace_zero_head T _ (by omega)
  · intro hEq
    have h2 : ((List.range (pyInt (T / dt)).toNat).map
          (fun i : ℕ => (i : ℚ) * dt)).getD ((pyInt (T / dt)).toNat - 1) 0
        = (((pyInt (T / dt)).toNat - 1 : ℕ) : ℚ) * dt := by
      rw [List.getD_eq_getElem?_getD, List.getElem?_map,
        List.getElem?_range (by omega)]
      simp only [Option.map_some', Option.getD_some]
    rw [hEq, h2] at hlast
    have hNle : (((pyInt (T / dt)).toNat : ℕ) : ℚ) ≤ T / dt := by
      have hNZ : (((pyInt (T / dt)).toNat : ℕ) : ℤ) = ⌊T / dt⌋ := by omega
      have hfl : ((⌊T / dt⌋ : ℤ) : ℚ) ≤ T / dt := Int.floor_le (T / dt)
      rw [← hNZ] at hfl
      exact_mod_cast hfl
    have hmul : (((pyInt (T / dt)).toNat : ℕ) : ℚ) * dt ≤ T :=
      (le_div_iff₀ hdt).1 hNle
    have hc : (((pyInt (T / dt)).toNat - 1 : ℕ) : ℚ)
        = (((pyInt (T / dt)).toNat : ℕ) : ℚ) - 1 := by
      rw [Nat.cast_sub (by omega : 1 ≤ (pyInt (T / dt)).toNat), Nat.cast_one]
    rw [hc] at hlast
    nlinarith [hlast, hmul, hdt]

theorem claim_C6_amended_witness :
    (0 : ℚ) < 2 ∧ (0 : ℚ) < 1 ∧ 2 ≤ ⌊(2 : ℚ) / 1⌋
      ∧ ((rosslerOk 0 2 1).t = linspace 0 2 (pyInt ((2 : ℚ) / 1)).toNat
          ∧ (rosslerOk 0 2 1).t.getD 0 0 = 0
          ∧ (rosslerOk 0 2 1).t.getD ((pyInt ((2 : ℚ) / 1)).toNat - 1) 0 = 2
          ∧ (rosslerOk 0 2 1).t
              ≠ (List.range (pyInt ((2 : ℚ) / 1)).toNat).map
                  (fun i : ℕ => (i : ℚ) * 1)) :=
  ⟨by norm_num, by norm_num, by with_unfolding_all decide,
    claim_C6_amended 0 2 1 (by norm_num) (by norm_num)
      (by with_unfolding_all decide)⟩

/-- Claim C7: every interior row `i` (with `1 ≤ i ≤ n - 1`) of the
Trajectory equals the RK4 stepper applied to row `i - 1` alone — a
deterministic pure function of row `i - 1`, `dt` and `c` (the embedding
has no other state the rows could depend on). -/
theorem claim_C7 (c T dt : ℚ) (i : ℕ) (hT : 0 < T) (hdt : 0 < dt)
    (h1 : 1 ≤ i) (h2 : i < (rosslerOk c T dt).states.length) :
    (rosslerOk c T dt).states.getD i St.zero
      = rk4_step c ((rosslerOk c T dt).states.getD (i - 1) St.zero) dt
          (dt * (i : ℚ)) := by
  rw [rosslerOk_states_length] at h2
  exact rosslerOk_row_succ c T dt i h1 h2

theorem claim_C7_witness :
    (0 : ℚ) < 2 ∧ (0 : ℚ) < 1 ∧ 1 ≤ 1
      ∧ 1 < (rosslerOk 0 2 1).states.length
      ∧ (rosslerOk 0 2 1).states.getD 1 St.zero
          = rk4_step 0 ((rosslerOk 0 2 1).states.getD (1 - 1) St.zero) 1
              (1 * ((1 : ℕ) : ℚ)) := by
  have hlen : 1 < (rosslerOk 0 2 1).states.length := by
    rw [rosslerOk_states_length]
    with_unfolding_all decide
  exact ⟨by norm_num, by norm_num, le_rfl, hlen,
    claim_C7 0 2 1 1 (by norm_num) (by norm_num) le_rfl hlen⟩

/-- Claim C8 (counterexample): the call `integrate(c, T=0, dt=1/1000)` does
not fail with any validation error — it returns a normal, empty
trajectory.  No `InvalidParameter` check exists in the code. -/
theorem claim_C8_cex :
    rossler 0 0 (1 / 1000) = .ok ⟨[], []⟩ := by
  rw [rossler_eq_ok 0 0 (1 / 1000) (by norm_num) le_rfl]
  exact congrArg Except.ok (by with_unfolding_all decide)

/-- Claim C8 (amended): `integrate` performs no entry validation of `T`
and `dt`.  For any `dt > 0` the call with `T = 0` silently returns an
empty trajectory, and a call with `dt = 0` dies with the runtime
`ZeroDivisionError` raised by `T / dt` — not with a dedicated
`InvalidParameter` error. -/
theorem claim_C8_amended (c dt : ℚ) (hdt : 0 < dt) :
    rossler c 0 dt = .ok ⟨[], []⟩
      ∧ ∀ T : ℚ, rossler c T 0 = .error .zeroDivisionError := by
  constructor
  · rw [rossler_eq_ok c 0 dt hdt le_rfl]
    refine congrArg Except.ok ?_
    have h0 : pyInt (0 / dt) = 0 := by
      rw [zero_div, pyInt_eq_floor 0 le_rfl, Int.floor_zero]
    simp only [rosslerOk, h0]
    rfl
  · intro T
    rw [rossler, if_pos rfl]

theorem claim_C8_amended_witness :
    (0 : ℚ) < 1
      ∧ (rossler 0 0 1 = .ok ⟨[], []⟩
          ∧ ∀ T : ℚ, rossler 0 T 0 = .error .zeroDivisionError) :=
  ⟨by norm_num, claim_C8_amended 0 1 (by norm_num)⟩

/-- Claim C9 (counterexample): at `c = 0`, `T = 1`, `dt = 2` (so
`⌊T/dt⌋ = 0 < 1`) the call raises nothing: it silently returns an empty
trajectory instead of surfacing a `DegenerateTrajectory` error. -/
theorem claim_C9_cex :
    rossler 0 1 2 = .ok ⟨[], []⟩ := by
  rw [rossler_eq_ok 0 1 2 (by norm_num) (by norm_num)]
  exact congrArg Except.ok (by with_unfolding_all decide)

/-- Claim C9 (amended): whenever `0 < T < dt` — that is, `⌊T/dt⌋ < 1` —
the call silently returns the empty trajectory (zero rows, empty time
column); no error of any kind is surfaced. -/
theorem claim_C9_amended (c T dt : ℚ) (hT : 0 < T) (hTdt : T < dt) :
    ⌊T / dt⌋ < 1 ∧ rossler c T dt = .ok ⟨[], []⟩ := by
  have hdt : 0 < dt := lt_trans hT hTdt
  have hq0 : (0 : ℚ) ≤ T / dt := div_nonneg hT.le hdt.le
  have hq1 : T / dt < 1 := (div_lt_one hdt).2 hTdt
  have hfl : ⌊T / dt⌋ = 0 := Int.floor_eq_zero_iff.2 ⟨hq0, hq1⟩
  refine ⟨by omega, ?_⟩
  rw [rossler_eq_ok c T dt hdt hT.le]
  refine congrArg Except.ok ?_
  have h0 : pyInt (T / dt) = 0 := by rw [pyInt_eq_floor _ hq0, hfl]
  simp only [rosslerOk, h0]
  rfl

theorem claim_C9_amended_witness :
    (0 : ℚ) < 1 ∧ (1 : ℚ) < 2
      ∧ (⌊(1 : ℚ) / 2⌋ < 1 ∧ rossler 0 1 2 = .ok ⟨[], []⟩) :=
  ⟨by norm_num, by norm_num, claim_C9_amended 0 1 2 (by norm_num) (by norm_num)⟩

/-- Claim C10: the stepper is time-homogeneous — its result is identical
for any two values of the `t_current` argument — and consequently the
whole driver loop computes the same buffer for any alternative assignment
of `t_current` values, so the time value computed inside the loop never
influences any trajectory row. -/
theorem claim_C10 (c : ℚ) (u_prev : St) (dt t1 t2 : ℚ) :
    rk4_step c u_prev dt t1 = rk4_step c u_prev dt t2
      ∧ ∀ (tc : ℕ → ℚ) (u : List St) (n : ℕ),
          for_loopT tc u dt n c = for_loop u dt n c :=
  ⟨rfl, fun tc u n => rfl⟩
